import Mathlib

/-!
Verification development for the koto runtime sources.

The repository contains two generations of the runtime:

* `src/src/koto/src/runtime.rs` — a tree-walking interpreter whose `Value`
  type stores all numbers as 64-bit floats.  It is embedded below in the
  `Interp` namespace.
* `src/core/runtime/src/value.rs` (with `value_list.rs`) — the newer value
  model with `deep_copy`, `is_hashable` and `size`.  It is embedded in the
  `Core` namespace.
* `src/libs/toml/src/lib.rs` — the TOML module, embedded in the `KotoToml`
  namespace.

Machine floats are modelled by the `Float64` type below: exact rationals for
the finite values plus the IEEE-754 special values `inf`, `ninf` and `nan`.
Rounding of finite results is not modelled (no property below depends on it);
the IEEE special-value rules (division by zero, NaN propagation, NaN being
unequal to and incomparable with everything) are modelled exactly, since the
claims about division by zero and about equality depend on them.  `f32`
components (the interpreter's `Vec4`) are modelled by the same type.
-/

/-- Model of an `f64` (also used for `f32` components): a finite value is an
exact rational; the special values are explicit constructors.  IEEE-754
distinguishes `+0.0` from `-0.0`; both are modelled by the rational `0`. -/
inductive Float64 where
  | finite (q : ℚ)
  | inf
  | ninf
  | nan
deriving DecidableEq, Repr

namespace Float64

/-- Truncation of a rational toward zero, as Rust's `as` casts do. -/
def ratTrunc (q : ℚ) : Int :=
  q.num.tdiv (q.den : Int)

/-- IEEE-754 equality: `nan` is unequal to everything, including itself. -/
def feq : Float64 → Float64 → Bool
  | finite a, finite b => a == b
  | inf, inf => true
  | ninf, ninf => true
  | _, _ => false

/-- IEEE-754 less-than: `nan` is incomparable with everything. -/
def flt : Float64 → Float64 → Bool
  | finite a, finite b => a < b
  | finite _, inf => true
  | ninf, finite _ => true
  | ninf, inf => true
  | _, _ => false

/-- IEEE-754 less-or-equal. -/
def fle (a b : Float64) : Bool :=
  flt a b || feq a b

/-- IEEE-754 negation. -/
def fneg : Float64 → Float64
  | finite a => finite (-a)
  | inf => ninf
  | ninf => inf
  | nan => nan

/-- IEEE-754 addition (rounding of finite results not modelled). -/
def fadd : Float64 → Float64 → Float64
  | nan, _ => nan
  | _, nan => nan
  | finite a, finite b => finite (a + b)
  | inf, ninf => nan
  | ninf, inf => nan
  | inf, _ => inf
  | _, inf => inf
  | ninf, _ => ninf
  | _, ninf => ninf

/-- IEEE-754 subtraction. -/
def fsub (a b : Float64) : Float64 :=
  fadd a (fneg b)

/-- IEEE-754 multiplication: infinity times zero is `nan`. -/
def fmul : Float64 → Float64 → Float64
  | nan, _ => nan
  | _, nan => nan
  | finite a, finite b => finite (a * b)
  | inf, inf => inf
  | inf, ninf => ninf
  | ninf, inf => ninf
  | ninf, ninf => inf
  | inf, finite q => if q = 0 then nan else if 0 < q then inf else ninf
  | finite q, inf => if q = 0 then nan else if 0 < q then inf else ninf
  | ninf, finite q => if q = 0 then nan else if 0 < q then ninf else inf
  | finite q, ninf => if q = 0 then nan else if 0 < q then ninf else inf

/-- IEEE-754 division: `x / 0` is `nan` for `x = 0` and a signed infinity
otherwise (the sign of a zero divisor is conflated with `+0`). -/
def fdiv : Float64 → Float64 → Float64
  | nan, _ => nan
  | _, nan => nan
  | finite a, finite b =>
    if b = 0 then
      if a = 0 then nan else if 0 < a then inf else ninf
    else finite (a / b)
  | finite _, inf => finite 0
  | finite _, ninf => finite 0
  | inf, finite q => if 0 ≤ q then inf else ninf
  | ninf, finite q => if 0 ≤ q then ninf else inf
  | inf, _ => nan
  | ninf, _ => nan

/-- Rust's `%` on floats: `a - b * trunc(a / b)`; `x % 0` is `nan`, an
infinite dividend gives `nan`, an infinite divisor returns the dividend. -/
def fmod : Float64 → Float64 → Float64
  | nan, _ => nan
  | _, nan => nan
  | finite a, finite b =>
    if b = 0 then nan else finite (a - b * (ratTrunc (a / b) : ℚ))
  | finite a, inf => finite a
  | finite a, ninf => finite a
  | inf, _ => nan
  | ninf, _ => nan

/-- `true` exactly on the finite values. -/
def isFinite : Float64 → Bool
  | finite _ => true
  | _ => false

/-- Rust's saturating `f64 as usize` cast: truncate toward zero, clamp to
`[0, 2^64 - 1]`, and send `nan` to `0`. -/
def f64_as_usize : Float64 → Nat
  | finite q =>
    let t := ratTrunc q
    if t < 0 then 0 else min t.toNat (2 ^ 64 - 1)
  | inf => 2 ^ 64 - 1
  | ninf => 0
  | nan => 0

/-- Rust's saturating `f64 as isize` cast: truncate toward zero, clamp to
`[-2^63, 2^63 - 1]`, and send `nan` to `0`. -/
def f64_as_isize : Float64 → Int
  | finite q => max (-(2 ^ 63)) (min (ratTrunc q) (2 ^ 63 - 1))
  | inf => 2 ^ 63 - 1
  | ninf => -(2 ^ 63)
  | nan => 0

end Float64

namespace Interp

/-!
Embedding of `src/src/koto/src/runtime.rs` (the tree-walking interpreter).
Its `Value` enum (from `crate::value`, used throughout `runtime.rs` and
`src/src/std/src/lib.rs`) stores every number as an `f64`.  AST payloads
(`koto_parser` types) carry no values; they are abstracted by identifiers.
Shared handles (`Rc`, `Rc<RefCell<..>>`) compare by content in this
interpreter, so handle identity is not modelled here.
-/

/-- The parser's function payload: argument names and the body (the body is a
block of AST nodes carrying no runtime values, abstracted by an id). -/
structure FunctionAst where
  args : List String
  body : Nat
deriving DecidableEq, Repr

mutual

/-- The interpreter's `Value` enum.  `Number` holds an `f64`; `Vec4` holds
four `f32` components; `List` is `Rc<Vec<Value>>`; `Map` is
`Rc<RefCell<ValueMap>>` over `HashMap<Id, Value>`, represented by its
entries; `ExternalFunction`, `For` and `BuiltinValue` carry no comparable
runtime values and are abstracted by identifiers; `Range` holds two `isize`
bounds. -/
inductive Value where
  | empty
  | bool (b : Bool)
  | number (x : Float64)
  | vec4 (x0 x1 x2 x3 : Float64)
  | str (s : String)
  | list (elements : VList)
  | map (entries : VEntries)
  | function (f : FunctionAst)
  | externalFunction (h : Nat)
  | forLoop (ast : Nat)
  | builtinValue (h : Nat)
  | range (rmin rmax : Int)

/-- The element list of a `Value::List`. -/
inductive VList where
  | nil
  | cons (v : Value) (rest : VList)

/-- The entries of a `Value::Map` (key/value pairs). -/
inductive VEntries where
  | nil
  | cons (key : String) (v : Value) (rest : VEntries)

end

namespace VList

/-- Number of elements. -/
def length : VList → Nat
  | .nil => 0
  | .cons _ rest => 1 + rest.length

/-- Element at an index, if in bounds. -/
def get? : VList → Nat → Option Value
  | .nil, _ => none
  | .cons v _, 0 => some v
  | .cons _ rest, Nat.succ i => rest.get? i

/-- Element at an index, with a default for the out-of-bounds case. -/
def getD (xs : VList) (i : Nat) (dflt : Value) : Value :=
  (xs.get? i).getD dflt

/-- Replace the element at an index (identity when out of bounds). -/
def set : VList → Nat → Value → VList
  | .nil, _, _ => .nil
  | .cons _ rest, 0, v => .cons v rest
  | .cons x rest, Nat.succ i, v => .cons x (rest.set i v)

/-- Drop the first `n` elements. -/
def drop : VList → Nat → VList
  | xs, 0 => xs
  | .nil, _ => .nil
  | .cons _ rest, Nat.succ n => rest.drop n

/-- Take the first `n` elements. -/
def take : VList → Nat → VList
  | _, 0 => .nil
  | .nil, _ => .nil
  | .cons x rest, Nat.succ n => .cons x (rest.take n)

/-- The sub-list of the elements with indices in `[a, b)`, as produced by
Rust's `&elements[a..b]`. -/
def slice (xs : VList) (a b : Nat) : VList :=
  (xs.drop a).take (b - a)

/-- Overwrite every element with index in `[a, b)` with `v`, as the
interpreter's `for element in &mut data[umin..umax]` loop does. -/
def fillRange : VList → Nat → Nat → Value → VList
  | .nil, _, _, _ => .nil
  | .cons x rest, a, b, v =>
    .cons (if a = 0 ∧ 0 < b then v else x) (rest.fillRange (a - 1) (b - 1) v)

/-- List concatenation, as the interpreter's `List + List` arm. -/
def append : VList → VList → VList
  | .nil, ys => ys
  | .cons x rest, ys => .cons x (rest.append ys)

end VList

namespace VEntries

/-- True when the key occurs among the entries. -/
def hasKey : VEntries → String → Bool
  | .nil, _ => false
  | .cons k _ rest, key => k == key || rest.hasKey key

/-- Remove every entry whose key occurs in the second entry list. -/
def removeKeys : VEntries → VEntries → VEntries
  | .nil, _ => .nil
  | .cons k v rest, other =>
    if other.hasKey k then rest.removeKeys other
    else .cons k v (rest.removeKeys other)

/-- Concatenation of entry lists. -/
def append : VEntries → VEntries → VEntries
  | .nil, ys => ys
  | .cons k v rest, ys => .cons k v (rest.append ys)

end VEntries

/-- `HashMap::extend` over a clone of the left map, as the interpreter's
`Map + Map` arm: entries of the right map override entries of the left with
the same key.  (A `HashMap` has no observable entry order; this picks one
enumeration of the result.) -/
def mapExtend (a b : VEntries) : VEntries :=
  (a.removeKeys b).append b

end Interp

namespace Interp

mutual

/-- Modelled from the spec: the interpreter's `Value` equality (the `==` used
by `AstOp::Equal` at `runtime.rs:444` and by `assert_eq` in
`src/src/std/src/lib.rs`).  The `PartialEq` impl itself lives in the missing
`value.rs`; the spec states that equality is structural, element-wise, that
handles compare by content, and that float operations follow IEEE-754, so
numbers (and `Vec4` components) compare by IEEE equality and aggregates
compare recursively.  Map entries are compared pairwise in their enumeration
order; values without runtime content (`ExternalFunction`, `For`,
`BuiltinValue`, function bodies) compare by their abstract identifier. -/
def value_eq : Value → Value → Bool
  | .empty, .empty => true
  | .bool a, .bool b => a == b
  | .number a, .number b => Float64.feq a b
  | .vec4 a0 a1 a2 a3, .vec4 b0 b1 b2 b3 =>
    Float64.feq a0 b0 && Float64.feq a1 b1 && Float64.feq a2 b2 && Float64.feq a3 b3
  | .str a, .str b => a == b
  | .list xs, .list ys => vlist_eq xs ys
  | .map xs, .map ys => ventries_eq xs ys
  | .function f, .function g => f == g
  | .externalFunction a, .externalFunction b => a == b
  | .forLoop a, .forLoop b => a == b
  | .builtinValue a, .builtinValue b => a == b
  | .range a b, .range c d => a == c && b == d
  | _, _ => false

/-- Element-wise equality of list contents. -/
def vlist_eq : VList → VList → Bool
  | .nil, .nil => true
  | .cons x xs, .cons y ys => value_eq x y && vlist_eq xs ys
  | _, _ => false

/-- Pairwise equality of map entries. -/
def ventries_eq : VEntries → VEntries → Bool
  | .nil, .nil => true
  | .cons k v xs, .cons k2 v2 ys => k == k2 && value_eq v v2 && ventries_eq xs ys
  | _, _ => false

end

mutual

/-- `true` when the value contains no `nan` float (in a `Number` or a `Vec4`
component, at any depth). -/
def nan_free : Value → Bool
  | .number x => x != Float64.nan
  | .vec4 x0 x1 x2 x3 =>
    x0 != Float64.nan && x1 != Float64.nan && x2 != Float64.nan && x3 != Float64.nan
  | .list xs => vlist_nan_free xs
  | .map xs => ventries_nan_free xs
  | _ => true

/-- `nan_free` over list contents. -/
def vlist_nan_free : VList → Bool
  | .nil => true
  | .cons x xs => nan_free x && vlist_nan_free xs

/-- `nan_free` over map entries. -/
def ventries_nan_free : VEntries → Bool
  | .nil => true
  | .cons _ v xs => nan_free v && ventries_nan_free xs

end

/-- The binary operators of `koto_parser::AstOp` as matched in
`Runtime::evaluate` (`Node::Op`). -/
inductive AstOp where
  | add
  | subtract
  | multiply
  | divide
  | modulo
  | less
  | lessOrEqual
  | greater
  | greaterOrEqual
  | and
  | or
  | equal
  | notEqual
deriving DecidableEq, Repr

/-- The interpreter has a single runtime-error type carrying a message; the
distinct `runtime_error!` call sites modelled below are distinguished by
tag. -/
inductive Error where
  | binaryOpError
  | indexOutOfBounds
  | negativeIndicesUnsupported
  | badIndexType
  | indexTargetNotAList
  | invalidRange
  | rangeBoundsNotNumbers
  | incorrectArgumentCount
deriving DecidableEq, Repr

/-- The operator evaluation of `Runtime::evaluate` for `Node::Op`
(`runtime.rs:443-506`), applied to the two already-evaluated operands:
`Equal`/`NotEqual` compare any pair of values; the remaining operators
dispatch on the operand variants and fail with the `binary_op_error!`
message otherwise. -/
def binaryOp (op : AstOp) (a b : Value) : Except Error Value :=
  match op with
  | .equal => .ok (.bool (value_eq a b))
  | .notEqual => .ok (.bool (!value_eq a b))
  | _ =>
    match a, b with
    | .number x, .number y =>
      match op with
      | .add => .ok (.number (Float64.fadd x y))
      | .subtract => .ok (.number (Float64.fsub x y))
      | .multiply => .ok (.number (Float64.fmul x y))
      | .divide => .ok (.number (Float64.fdiv x y))
      | .modulo => .ok (.number (Float64.fmod x y))
      | .less => .ok (.bool (Float64.flt x y))
      | .lessOrEqual => .ok (.bool (Float64.fle x y))
      | .greater => .ok (.bool (Float64.flt y x))
      | .greaterOrEqual => .ok (.bool (Float64.fle y x))
      | _ => .error .binaryOpError
    | .vec4 x0 x1 x2 x3, .vec4 y0 y1 y2 y3 =>
      match op with
      | .add => .ok (.vec4 (Float64.fadd x0 y0) (Float64.fadd x1 y1)
          (Float64.fadd x2 y2) (Float64.fadd x3 y3))
      | .subtract => .ok (.vec4 (Float64.fsub x0 y0) (Float64.fsub x1 y1)
          (Float64.fsub x2 y2) (Float64.fsub x3 y3))
      | .multiply => .ok (.vec4 (Float64.fmul x0 y0) (Float64.fmul x1 y1)
          (Float64.fmul x2 y2) (Float64.fmul x3 y3))
      | .divide => .ok (.vec4 (Float64.fdiv x0 y0) (Float64.fdiv x1 y1)
          (Float64.fdiv x2 y2) (Float64.fdiv x3 y3))
      | .modulo => .ok (.vec4 (Float64.fmod x0 y0) (Float64.fmod x1 y1)
          (Float64.fmod x2 y2) (Float64.fmod x3 y3))
      | _ => .error .binaryOpError
    | .number x, .vec4 y0 y1 y2 y3 =>
      match op with
      | .add => .ok (.vec4 (Float64.fadd x y0) (Float64.fadd x y1)
          (Float64.fadd x y2) (Float64.fadd x y3))
      | .subtract => .ok (.vec4 (Float64.fsub x y0) (Float64.fsub x y1)
          (Float64.fsub x y2) (Float64.fsub x y3))
      | .multiply => .ok (.vec4 (Float64.fmul x y0) (Float64.fmul x y1)
          (Float64.fmul x y2) (Float64.fmul x y3))
      | .divide => .ok (.vec4 (Float64.fdiv x y0) (Float64.fdiv x y1)
          (Float64.fdiv x y2) (Float64.fdiv x y3))
      | .modulo => .ok (.vec4 (Float64.fmod x y0) (Float64.fmod x y1)
          (Float64.fmod x y2) (Float64.fmod x y3))
      | _ => .error .binaryOpError
    | .vec4 x0 x1 x2 x3, .number y =>
      match op with
      | .add => .ok (.vec4 (Float64.fadd x0 y) (Float64.fadd x1 y)
          (Float64.fadd x2 y) (Float64.fadd x3 y))
      | .subtract => .ok (.vec4 (Float64.fsub x0 y) (Float64.fsub x1 y)
          (Float64.fsub x2 y) (Float64.fsub x3 y))
      | .multiply => .ok (.vec4 (Float64.fmul x0 y) (Float64.fmul x1 y)
          (Float64.fmul x2 y) (Float64.fmul x3 y))
      | .divide => .ok (.vec4 (Float64.fdiv x0 y) (Float64.fdiv x1 y)
          (Float64.fdiv x2 y) (Float64.fdiv x3 y))
      | .modulo => .ok (.vec4 (Float64.fmod x0 y) (Float64.fmod x1 y)
          (Float64.fmod x2 y) (Float64.fmod x3 y))
      | _ => .error .binaryOpError
    | .bool x, .bool y =>
      match op with
      | .and => .ok (.bool (x && y))
      | .or => .ok (.bool (x || y))
      | _ => .error .binaryOpError
    | .list xs, .list ys =>
      match op with
      | .add => .ok (.list (xs.append ys))
      | _ => .error .binaryOpError
    | .map xs, .map ys =>
      match op with
      | .add => .ok (.map (mapExtend xs ys))
      | _ => .error .binaryOpError
    | _, _ => .error .binaryOpError

end Interp

namespace Interp

/-- `Runtime::list_index` (`runtime.rs:920-988`), applied to the list's
elements and the already-evaluated index value.  A `Number` index is cast
with `as usize` (saturating) and checked against the length; a `Range` index
first rejects negative bounds, then rejects `umin >= len || umax >= len`,
and otherwise yields the slice `elements[umin..umax]` as a new list; any
other index value is an error, as is indexing a non-`List` (handled by the
caller arm modelled in the target argument below). -/
def list_index (elements : VList) (index : Value) : Except Error Value :=
  match index with
  | .number i =>
    let i := Float64.f64_as_usize i
    if i < elements.length then
      .ok (elements.getD i .empty)
    else
      .error .indexOutOfBounds
  | .range rmin rmax =>
    let umin := rmin.toNat
    let umax := rmax.toNat
    if rmin < 0 ∨ rmax < 0 then
      .error .negativeIndicesUnsupported
    else if umin ≥ elements.length ∨ umax ≥ elements.length then
      .error .indexOutOfBounds
    else
      .ok (.list (elements.slice umin umax))
  | _ => .error .badIndexType

/-- The visitor body of `Runtime::set_list_value` (`runtime.rs:847-918`),
applied to the assignment target and the already-evaluated index and value:
on a `List`, a `Number` index is cast with `as usize` and the element is
replaced when in bounds; a `Range` index rejects negative bounds, then
rejects `umin >= len || umax > len`, and otherwise overwrites
`data[umin..umax]`; other index values and non-`List` targets are errors.
The successful result is the updated list contents. -/
def set_list_value (target : Value) (index : Value) (value : Value) :
    Except Error VList :=
  match target with
  | .list data =>
    match index with
    | .number i =>
      let i := Float64.f64_as_usize i
      if i < data.length then
        .ok (data.set i value)
      else
        .error .indexOutOfBounds
    | .range rmin rmax =>
      let umin := rmin.toNat
      let umax := rmax.toNat
      if rmin < 0 ∨ rmax < 0 then
        .error .negativeIndicesUnsupported
      else if umin ≥ data.length ∨ umax > data.length then
        .error .indexOutOfBounds
      else
        .ok (data.fillRange umin umax value)
    | _ => .error .badIndexType
  | _ => .error .indexTargetNotAList

/-- The `Some(Function(f))` branch of `Runtime::call_function`
(`runtime.rs:1026-1081`): the expected argument count is the declared count,
minus one when the function is called through a lookup path of length `> 1`
and its first parameter is named `self`; a call with any other number of
arguments fails with the `Incorrect argument count` error before the
argument expressions and the body are evaluated.  Evaluation of the
arguments and body is abstracted by `evalArgsAndBody`, which is only reached
when the count check passes. -/
def call_function (idLen : Nat) (f : FunctionAst) (callArgCount : Nat)
    (evalArgsAndBody : Unit → Except Error Value) : Except Error Value :=
  let arg_count := f.args.length
  let expected_args :=
    if 1 < idLen ∧ 0 < arg_count ∧ f.args.head? = some "self" then
      arg_count - 1
    else
      arg_count
  if callArgCount ≠ expected_args then
    .error .incorrectArgumentCount
  else
    evalArgsAndBody ()

/-- The `Range { min, max }` expansion arm of
`Runtime::evaluate_and_expand` (`runtime.rs:198-202`): `for i in min..max`
pushes `Number(i as f64)` for each integer of the half-open range. -/
def expand_range (rmin rmax : Int) : List Value :=
  (List.range (rmax - rmin).toNat).map
    (fun i : Nat => .number (.finite ((rmin + (i : Int) : Int) : ℚ)))

/-- The `Node::Range` arm of `Runtime::evaluate` (`runtime.rs:256-293`),
applied to the two already-evaluated bound values: both must be `Number`s;
they are cast with `as isize`, the max bound is incremented for an inclusive
range, and the `Range` value is produced only when `min <= max` (otherwise
the `Invalid range` error is raised).  The `isize` increment of the model
does not overflow; in Rust an inclusive range ending at `isize::MAX` would
panic or wrap (and a wrap also fails the `min <= max` check). -/
def evaluate_range (minVal maxVal : Value) (inclusive : Bool) :
    Except Error Value :=
  match minVal, maxVal with
  | .number a, .number b =>
    let rmin := Float64.f64_as_isize a
    let rmax0 := Float64.f64_as_isize b
    let rmax := if inclusive then rmax0 + 1 else rmax0
    if rmin ≤ rmax then
      .ok (.range rmin rmax)
    else
      .error .invalidRange
  | _, _ => .error .rangeBoundsNotNumbers

end Interp

namespace Core

/-!
Embedding of `src/core/runtime/src/value.rs` and `value_list.rs`.  Mutable
shared handles (`ValueList`'s `PtrMut<ValueVec>`, `ValueMap`'s cells, the
meta-map cell, iterators and objects) are modelled by explicit handle
identifiers (`Nat`), so that `deep_copy`'s sharing behaviour is observable:
`deep_copy` threads a counter of the next fresh handle.  Immutable shared
payloads (strings, tuples, chunks) are modelled by their content only.
-/

/-- `ValueNumber`: a signed 64-bit integer or a 64-bit float. -/
inductive ValueNumber where
  | i64 (n : Int)
  | f64 (x : Float64)
deriving DecidableEq, Repr

/-- `IntRange` start/end bounds (`end` is a reserved word in Lean; `finish`
stands for it). -/
structure IntRange where
  start : Int
  finish : Int
deriving DecidableEq, Repr

mutual

/-- The `Value` enum of `src/core/runtime/src/value.rs`.  `Nat` fields named
`h` are mutable-handle identifiers; `chunk` fields identify the shared
(immutable) `Ptr<Chunk>`.  The iterator's and object's internal state is not
modelled, only their handles. -/
inductive Value where
  | null
  | bool (b : Bool)
  | number (n : ValueNumber)
  | range (r : IntRange)
  | list (h : Nat) (data : ValueVec)
  | tuple (data : ValueVec)
  | map (h : Nat) (data : ValueEntries) (meta : OptMetaMap)
  | str (s : String)
  | simpleFunction (chunk ip argCount : Nat)
  | function (info : FunctionInfo)
  | externalFunction (h : Nat)
  | generator (info : FunctionInfo)
  | iterator (h : Nat)
  | object (h : Nat)
  | temporaryTuple (start count : Nat)
  | sequenceBuilder (data : ValueVec)
  | stringBuilder (s : String)

/-- The `ValueVec` contents of a list, tuple or sequence builder. -/
inductive ValueVec where
  | nil
  | cons (v : Value) (rest : ValueVec)

/-- The key/value entries of a `ValueMap`'s data map. -/
inductive ValueEntries where
  | nil
  | cons (key val : Value) (rest : ValueEntries)

/-- `FunctionInfo`: chunk/ip/arg_count plus the variadic and
`arg_is_unpacked_tuple` flags and the optional shared captures list. -/
inductive FunctionInfo where
  | mk (chunk ip argCount : Nat) (variadic argIsUnpackedTuple : Bool)
      (captures : OptCaptures)

/-- The optional captures `ValueList` of a `FunctionInfo`: a mutable-handle
cell with its contents. -/
inductive OptCaptures where
  | none
  | some (h : Nat) (data : ValueVec)

/-- The optional meta-map of a `ValueMap`: a mutable-handle cell with the
values stored under its meta-keys (the keys carry no runtime values). -/
inductive OptMetaMap where
  | none
  | some (h : Nat) (vals : ValueVec)

end

/-- Number of elements of a `ValueVec` (`ValueList::len`). -/
def ValueVec.length : ValueVec → Nat
  | .nil => 0
  | .cons _ rest => 1 + rest.length

/-- Number of entries of a map's data (`ValueMap::len`). -/
def ValueEntries.length : ValueEntries → Nat
  | .nil => 0
  | .cons _ _ rest => 1 + rest.length

mutual

/-- `Value::is_hashable` (`value.rs:130-137`): `Null`, `Bool`, `Number`,
`Range` and `Str` are hashable, a `Tuple` is hashable when its contents are,
and nothing else is. -/
def is_hashable : Value → Bool
  | .null => true
  | .bool _ => true
  | .number _ => true
  | .range _ => true
  | .str _ => true
  | .tuple t => is_hashable_vec t
  | _ => false

/-- Modelled from the spec: `ValueTuple::is_hashable` (defined in the
missing `value_tuple.rs`) — "A Tuple is hashable iff all its elements are
hashable". -/
def is_hashable_vec : ValueVec → Bool
  | .nil => true
  | .cons v rest => is_hashable v && is_hashable_vec rest

end

/-- Modelled from the spec (and the doc comment at `value.rs:127-129`):
"Only hashable values are acceptable as map keys"; the map-insertion
opcode rejects any other key with a runtime type error.  The acceptance
predicate is therefore exactly `is_hashable`. -/
def accepted_as_map_key (v : Value) : Bool :=
  is_hashable v

/-- `Value::size` (`value.rs:162-172`): element count for `List`, `Tuple`
and `Map`, the register count for `TemporaryTuple`, and `1` for every other
variant.  The Rust function returns a plain `usize`: it has no error path. -/
def size : Value → Nat
  | .list _ l => l.length
  | .tuple t => t.length
  | .temporaryTuple _ count => count
  | .map _ m _ => m.length
  | _ => 1

mutual

/-- `Value::deep_copy` (`value.rs:81-115`) with an explicit allocator for
fresh handles (`n` is the next unused handle; every handle of the input is
assumed to be below it).  `List`, `Tuple` and `Map` recurse into their
contents — a map's keys are cloned shallowly (`k.clone()`), and its
meta-map is cloned into a fresh cell with shallowly-cloned values
(`meta.borrow().clone()`).  An `Iterator` is copied via `make_copy` and an
`Object` via `copy` — both live outside `src/` and are modelled from the
spec as snapshot copies with a fresh handle.  Every remaining variant falls
into the `_ => self.clone()` arm, which shares whatever handles the value
holds (in particular a function's captures list). -/
def deep_copy : Value → Nat → Value × Nat
  | .list _ xs, n =>
    let r := deep_copy_vec xs n
    (.list r.2 r.1, r.2 + 1)
  | .tuple xs, n =>
    let r := deep_copy_vec xs n
    (.tuple r.1, r.2)
  | .map _ es meta, n =>
    let r := deep_copy_entries es n
    match meta with
    | .none => (.map r.2 r.1 .none, r.2 + 1)
    | .some _ vals => (.map (r.2 + 1) r.1 (.some r.2 vals), r.2 + 2)
  | .iterator _, n => (.iterator n, n + 1)
  | .object _, n => (.object n, n + 1)
  | v, n => (v, n)

/-- `deep_copy` over list/tuple contents (the `iter().map(deep_copy)`
collections). -/
def deep_copy_vec : ValueVec → Nat → ValueVec × Nat
  | .nil, n => (.nil, n)
  | .cons v rest, n =>
    let r := deep_copy v n
    let r2 := deep_copy_vec rest r.2
    (.cons r.1 r2.1, r2.2)

/-- `deep_copy` over map entries: values are deep-copied, keys are cloned
shallowly (`(k.clone(), v.deep_copy())`). -/
def deep_copy_entries : ValueEntries → Nat → ValueEntries × Nat
  | .nil, n => (.nil, n)
  | .cons k v rest, n =>
    let r := deep_copy v n
    let r2 := deep_copy_entries rest r.2
    (.cons k r.1 r2.1, r2.2)

end

mutual

/-- Structural equality of core values: same variant and recursively equal
contents, ignoring mutable-handle identity.  Floats compare representation-
wise here (this is the "structurally equal" of the deep-copy claim, i.e.
identity of stored content, not the runtime's `==` operator).  Iterator and
object payloads are not modelled, so two iterators (or two objects) are
structurally indistinguishable. -/
def structEq : Value → Value → Bool
  | .null, .null => true
  | .bool a, .bool b => a == b
  | .number a, .number b => a == b
  | .range a, .range b => a == b
  | .list _ xs, .list _ ys => structEq_vec xs ys
  | .tuple xs, .tuple ys => structEq_vec xs ys
  | .map _ es m, .map _ es2 m2 => structEq_entries es es2 && structEq_meta m m2
  | .str a, .str b => a == b
  | .simpleFunction c i a, .simpleFunction c2 i2 a2 =>
    c == c2 && i == i2 && a == a2
  | .function f, .function g => structEq_info f g
  | .externalFunction a, .externalFunction b => a == b
  | .generator f, .generator g => structEq_info f g
  | .iterator _, .iterator _ => true
  | .object _, .object _ => true
  | .temporaryTuple s c, .temporaryTuple s2 c2 => s == s2 && c == c2
  | .sequenceBuilder xs, .sequenceBuilder ys => structEq_vec xs ys
  | .stringBuilder a, .stringBuilder b => a == b
  | _, _ => false

/-- Element-wise structural equality of vec contents. -/
def structEq_vec : ValueVec → ValueVec → Bool
  | .nil, .nil => true
  | .cons x xs, .cons y ys => structEq x y && structEq_vec xs ys
  | _, _ => false

/-- Pairwise structural equality of map entries. -/
def structEq_entries : ValueEntries → ValueEntries → Bool
  | .nil, .nil => true
  | .cons k v xs, .cons k2 v2 ys =>
    structEq k k2 && structEq v v2 && structEq_entries xs ys
  | _, _ => false

/-- Structural equality of function infos (captures compared by content). -/
def structEq_info : FunctionInfo → FunctionInfo → Bool
  | .mk c i a v u cap, .mk c2 i2 a2 v2 u2 cap2 =>
    c == c2 && i == i2 && a == a2 && v == v2 && u == u2 &&
      structEq_captures cap cap2

/-- Structural equality of optional captures lists. -/
def structEq_captures : OptCaptures → OptCaptures → Bool
  | .none, .none => true
  | .some _ xs, .some _ ys => structEq_vec xs ys
  | _, _ => false

/-- Structural equality of optional meta-maps. -/
def structEq_meta : OptMetaMap → OptMetaMap → Bool
  | .none, .none => true
  | .some _ xs, .some _ ys => structEq_vec xs ys
  | _, _ => false

end

end Core

namespace Core

mutual

/-- The mutable handles reachable from a value that the deep-copy invariant
is about: list cells, map data cells and meta-map cells, object handles,
iterator handles, and captures-list cells (immutable shared payloads —
strings, tuples, chunks, external functions — are not counted). -/
def mut_handles : Value → List Nat
  | .list h xs => h :: mut_handles_vec xs
  | .tuple xs => mut_handles_vec xs
  | .map h es meta => h :: (mut_handles_entries es ++ mut_handles_meta meta)
  | .function f => mut_handles_info f
  | .generator f => mut_handles_info f
  | .iterator h => [h]
  | .object h => [h]
  | .sequenceBuilder xs => mut_handles_vec xs
  | _ => []

/-- Handles reachable from vec contents. -/
def mut_handles_vec : ValueVec → List Nat
  | .nil => []
  | .cons v rest => mut_handles v ++ mut_handles_vec rest

/-- Handles reachable from map entries (keys and values). -/
def mut_handles_entries : ValueEntries → List Nat
  | .nil => []
  | .cons k v rest => mut_handles k ++ mut_handles v ++ mut_handles_entries rest

/-- Handles reachable from a function info: the captures cell and its
contents. -/
def mut_handles_info : FunctionInfo → List Nat
  | .mk _ _ _ _ _ .none => []
  | .mk _ _ _ _ _ (.some h xs) => h :: mut_handles_vec xs

/-- Handles reachable from a meta-map: its cell and its values. -/
def mut_handles_meta : OptMetaMap → List Nat
  | .none => []
  | .some h xs => h :: mut_handles_vec xs

end

/-- `true` when no mutable handle is reachable from the value. -/
def handle_free (v : Value) : Bool :=
  mut_handles v = []

/-- `true` when every mutable handle reachable from the value is below `n`
(the allocator invariant for `deep_copy`). -/
def handles_below (v : Value) (n : Nat) : Bool :=
  (mut_handles v).all (fun h => h < n)

/-- `true` when the two values share no reachable mutable handle. -/
def disjoint_handles (a b : Value) : Bool :=
  (mut_handles a).all (fun h => !(mut_handles b).contains h)

mutual

/-- The fragment of values on which `deep_copy` produces a fully fresh
copy: the recursively-copied aggregates may nest arbitrarily, but the
positions that `deep_copy` clones shallowly must hold no mutable handle —
functions and generators must carry no captures list, map keys and meta-map
values must be handle-free, and a sequence builder's contents must be
handle-free. -/
def copy_clean : Value → Bool
  | .list _ xs => copy_clean_vec xs
  | .tuple xs => copy_clean_vec xs
  | .map _ es meta => copy_clean_entries es && copy_clean_meta meta
  | .function f => copy_clean_info f
  | .generator f => copy_clean_info f
  | .sequenceBuilder xs => handle_free_vec xs
  | _ => true

/-- `copy_clean` over vec contents. -/
def copy_clean_vec : ValueVec → Bool
  | .nil => true
  | .cons v rest => copy_clean v && copy_clean_vec rest

/-- `copy_clean` over map entries: keys (cloned shallowly) must be
handle-free, values are copied recursively. -/
def copy_clean_entries : ValueEntries → Bool
  | .nil => true
  | .cons k v rest => handle_free k && copy_clean v && copy_clean_entries rest

/-- A function info is clean for copying only without a captures list. -/
def copy_clean_info : FunctionInfo → Bool
  | .mk _ _ _ _ _ .none => true
  | .mk _ _ _ _ _ (.some _ _) => false

/-- A meta-map's values are cloned shallowly, so they must be handle-free. -/
def copy_clean_meta : OptMetaMap → Bool
  | .none => true
  | .some _ xs => handle_free_vec xs

/-- `handle_free` over vec contents. -/
def handle_free_vec : ValueVec → Bool
  | .nil => true
  | .cons v rest => handle_free v && handle_free_vec rest

end

end Core

namespace KotoToml

/-!
Embedding of `src/libs/toml/src/lib.rs`.  The `toml::Value` type of the
external `toml` crate is embedded as `Toml` with exactly the variants the
module matches on.  The module's `from_string` parses a string with
`toml::from_str` and converts with `toml_to_koto_value`; `to_string`
serializes with `toml::to_string_pretty` over `koto_serialize`'s
`SerializableValue`.  The serializer (`koto_serialize`, part of the
repository but not under `src/`) and the external crate's render/parse pair
are modelled below; the render/parse composition is modelled as the
identity on `Toml` values (the external crate's round-trip contract), so
`from_string ∘ to_string` becomes `toml_to_koto_value ∘ koto_to_toml`.
-/

mutual

/-- The external crate's `toml::Value` with the variants matched by
`toml_to_koto_value`: `Boolean`, `Integer` (i64), `Float` (f64), `String`,
`Array`, `Table` (string keys) and `Datetime` (carried here by its rendered
string). -/
inductive Toml where
  | boolean (b : Bool)
  | integer (i : Int)
  | float (x : Float64)
  | string (s : String)
  | array (xs : TomlArray)
  | table (es : TomlTable)
  | datetime (s : String)

/-- The element list of a `Toml::Array`. -/
inductive TomlArray where
  | nil
  | cons (t : Toml) (rest : TomlArray)

/-- The string-keyed entries of a `Toml::Table`. -/
inductive TomlTable where
  | nil
  | cons (key : String) (t : Toml) (rest : TomlTable)

end

mutual

/-- `toml_to_koto_value` (`libs/toml/src/lib.rs:7-34`): booleans, integers,
floats and strings map to the corresponding koto values, arrays become
lists, tables become maps with string keys and no meta-map, and datetimes
become their rendered string.  The Rust function returns `Result` only to
propagate errors of the recursive calls; no arm constructs an error, so the
embedding is total.  The fresh list/map cells created by
`ValueList::with_data` and `ValueMap::with_capacity` are given handle `0`
(handle identity plays no role in structural equality). -/
def toml_to_koto_value : Toml → Core.Value
  | .boolean b => .bool b
  | .integer i => .number (.i64 i)
  | .float x => .number (.f64 x)
  | .string s => .str s
  | .array xs => .list 0 (toml_array_values xs)
  | .table es => .map 0 (toml_table_values es) .none
  | .datetime s => .str s

/-- `toml_to_koto_value` over array elements. -/
def toml_array_values : TomlArray → Core.ValueVec
  | .nil => .nil
  | .cons t rest => .cons (toml_to_koto_value t) (toml_array_values rest)

/-- `toml_to_koto_value` over table entries (`map.add_value(key, ..)` keys
the map by the string). -/
def toml_table_values : TomlTable → Core.ValueEntries
  | .nil => .nil
  | .cons k t rest =>
    .cons (.str k) (toml_to_koto_value t) (toml_table_values rest)

end

mutual

/-- Modelled from the spec: `koto_serialize`'s `SerializableValue` composed
with the external crate's TOML serializer (`toml.to_string`).  Booleans,
integers, floats and strings map to the corresponding TOML values; lists
and tuples serialize as arrays; a map serializes its data entries as a
table, requiring string keys.  TOML has no null representation (the `Toml`
type matched in `src` has no null variant), so `Null` fails to serialize,
as does every remaining variant. -/
def koto_to_toml : Core.Value → Except String Toml
  | .bool b => .ok (.boolean b)
  | .number (.i64 n) => .ok (.integer n)
  | .number (.f64 x) => .ok (.float x)
  | .str s => .ok (.string s)
  | .list _ xs =>
    match koto_vec_to_toml xs with
    | .ok a => .ok (.array a)
    | .error e => .error e
  | .tuple xs =>
    match koto_vec_to_toml xs with
    | .ok a => .ok (.array a)
    | .error e => .error e
  | .map _ es _ =>
    match koto_entries_to_toml es with
    | .ok t => .ok (.table t)
    | .error e => .error e
  | _ => .error "unsupported value type"

/-- Serialization of list/tuple contents. -/
def koto_vec_to_toml : Core.ValueVec → Except String TomlArray
  | .nil => .ok .nil
  | .cons v rest =>
    match koto_to_toml v, koto_vec_to_toml rest with
    | .ok t, .ok ts => .ok (.cons t ts)
    | .error e, _ => .error e
    | _, .error e => .error e

/-- Serialization of map entries; keys must be strings. -/
def koto_entries_to_toml : Core.ValueEntries → Except String TomlTable
  | .nil => .ok .nil
  | .cons (.str k) v rest =>
    match koto_to_toml v, koto_entries_to_toml rest with
    | .ok t, .ok ts => .ok (.cons k t ts)
    | .error e, _ => .error e
    | _, .error e => .error e
  | .cons _ _ _ => .error "map key is not a string"

end

/-- `toml.from_string (toml.to_string v)`, with the external crate's
render/parse composition modelled as the identity on `Toml` values. -/
def round_trip (v : Core.Value) : Except String Core.Value :=
  match koto_to_toml v with
  | .ok t => .ok (toml_to_koto_value t)
  | .error e => .error e

/-- `true` when the round trip succeeds and returns a value structurally
equal to the input. -/
def round_trip_ok (v : Core.Value) : Bool :=
  match round_trip v with
  | .ok v2 => Core.structEq v2 v
  | .error _ => false

/-- `true` on string values (used for map keys in the TOML fragment). -/
def is_str (v : Core.Value) : Bool :=
  match v with
  | .str _ => true
  | _ => false

mutual

/-- The TOML-serializable fragment: booleans, numbers, strings, lists over
the fragment, and plain maps (no meta-map) with string keys and fragment
values.  `Null` is not in the fragment: TOML cannot represent it. -/
def in_fragment : Core.Value → Bool
  | .bool _ => true
  | .number _ => true
  | .str _ => true
  | .list _ xs => in_fragment_vec xs
  | .map _ es .none => in_fragment_entries es
  | _ => false

/-- `in_fragment` over list contents. -/
def in_fragment_vec : Core.ValueVec → Bool
  | .nil => true
  | .cons v rest => in_fragment v && in_fragment_vec rest

/-- `in_fragment` over map entries. -/
def in_fragment_entries : Core.ValueEntries → Bool
  | .nil => true
  | .cons k v rest => is_str k && in_fragment v && in_fragment_entries rest

end

mutual

/-- `true` when `Value::Null` occurs nowhere in the value. -/
def null_free : Core.Value → Bool
  | .null => false
  | .list _ xs => null_free_vec xs
  | .tuple xs => null_free_vec xs
  | .sequenceBuilder xs => null_free_vec xs
  | .map _ es meta => null_free_entries es && null_free_meta meta
  | .function f => null_free_info f
  | .generator f => null_free_info f
  | _ => true

/-- `null_free` over vec contents. -/
def null_free_vec : Core.ValueVec → Bool
  | .nil => true
  | .cons v rest => null_free v && null_free_vec rest

/-- `null_free` over map entries. -/
def null_free_entries : Core.ValueEntries → Bool
  | .nil => true
  | .cons k v rest => null_free k && null_free v && null_free_entries rest

/-- `null_free` over a function's captures. -/
def null_free_info : Core.FunctionInfo → Bool
  | .mk _ _ _ _ _ .none => true
  | .mk _ _ _ _ _ (.some _ xs) => null_free_vec xs

/-- `null_free` over meta-map values. -/
def null_free_meta : Core.OptMetaMap → Bool
  | .none => true
  | .some _ xs => null_free_vec xs

end

end KotoToml

namespace Core

/-- `true` when every mutable handle reachable from the value is at least
`n` (freshness of the handles allocated by `deep_copy`). -/
def handles_at_least (v : Value) (n : Nat) : Bool :=
  (mut_handles v).all (fun h => n ≤ h)

/-- `handles_at_least` over vec contents. -/
def handles_at_least_vec (xs : ValueVec) (n : Nat) : Bool :=
  (mut_handles_vec xs).all (fun h => n ≤ h)

/-- `handles_at_least` over map entries. -/
def handles_at_least_entries (es : ValueEntries) (n : Nat) : Bool :=
  (mut_handles_entries es).all (fun h => n ≤ h)

end Core

namespace KotoToml

/-- Round trip of list/tuple contents through TOML, by structural equality. -/
def round_trip_vec_ok (xs : Core.ValueVec) : Bool :=
  match koto_vec_to_toml xs with
  | .ok a => Core.structEq_vec (toml_array_values a) xs
  | .error _ => false

/-- Round trip of map entries through TOML, by structural equality. -/
def round_trip_entries_ok (es : Core.ValueEntries) : Bool :=
  match koto_entries_to_toml es with
  | .ok t => Core.structEq_entries (toml_table_values t) es
  | .error _ => false

end KotoToml

/-- C10: `Value::size` is total — it is a plain function into `Nat` with no
error path — and returns the element count for `List`, `Tuple` and `Map`,
the register count for `TemporaryTuple`, and exactly `1` for every other
variant, including strings, whose character count is not consulted. -/
theorem C10_size_total_and_counts :
    (∀ h xs, Core.size (.list h xs) = xs.length) ∧
    (∀ xs, Core.size (.tuple xs) = xs.length) ∧
    (∀ h es meta, Core.size (.map h es meta) = es.length) ∧
    (∀ s c, Core.size (.temporaryTuple s c) = c) ∧
    Core.size .null = 1 ∧
    (∀ b, Core.size (.bool b) = 1) ∧
    (∀ n, Core.size (.number n) = 1) ∧
    (∀ r, Core.size (.range r) = 1) ∧
    (∀ s, Core.size (.str s) = 1) ∧
    (∀ c i a, Core.size (.simpleFunction c i a) = 1) ∧
    (∀ f, Core.size (.function f) = 1) ∧
    (∀ h, Core.size (.externalFunction h) = 1) ∧
    (∀ f, Core.size (.generator f) = 1) ∧
    (∀ h, Core.size (.iterator h) = 1) ∧
    (∀ h, Core.size (.object h) = 1) ∧
    (∀ xs, Core.size (.sequenceBuilder xs) = 1) ∧
    (∀ s, Core.size (.stringBuilder s) = 1) := by
  refine ⟨?_, ?_, ?_, ?_, ?_, ?_, ?_, ?_, ?_, ?_, ?_, ?_, ?_, ?_, ?_, ?_, ?_⟩ <;>
    intros <;> rfl

/-- C2 counterexample: in this runtime every number is an `f64` — there are
no integer operands — and the `Number` arithmetic arm performs `a / b` with
no zero check, so evaluating `1 / 0` succeeds with `Number(inf)` instead of
raising a `DivideByZero` runtime error. -/
theorem C2_division_by_zero_counterexample :
    Interp.binaryOp .divide (.number (.finite 1)) (.number (.finite 0)) =
      .ok (.number .inf) := rfl

/-- C2 (amended): division and modulo never raise an error; `a / 0` and
`a % 0` follow IEEE-754 — the division result is an infinity or `nan`
(never a finite number) and the modulo result is `nan`. -/
theorem C2_division_by_zero_amended : ∀ a : Float64,
    Interp.binaryOp .divide (.number a) (.number (.finite 0)) =
      .ok (.number (Float64.fdiv a (.finite 0))) ∧
    Interp.binaryOp .modulo (.number a) (.number (.finite 0)) =
      .ok (.number (Float64.fmod a (.finite 0))) ∧
    Float64.isFinite (Float64.fdiv a (.finite 0)) = false ∧
    Float64.fmod a (.finite 0) = .nan := by
  intro a
  refine ⟨rfl, rfl, ?_, ?_⟩
  · cases a with
    | finite q =>
      by_cases hq : q = 0 <;> by_cases h0 : 0 < q <;>
        simp [Float64.fdiv, Float64.isFinite, hq, h0]
    | inf => decide
    | ninf => decide
    | nan => decide
  · cases a with
    | finite q => simp [Float64.fmod]
    | inf => decide
    | ninf => decide
    | nan => decide

/-- C9: the `Node::Range` evaluation only ever constructs a `Range` whose
`min` bound is at most its `max` bound (after numeric casting and the
inclusive-range increment, a descending pair raises the `Invalid range`
runtime error instead). -/
theorem C9_range_min_le_max : ∀ (a b : Interp.Value) (inclusive : Bool)
    (mn mx : Int),
    Interp.evaluate_range a b inclusive = .ok (.range mn mx) → mn ≤ mx := by
  intro a b inclusive mn mx h
  cases a <;> cases b <;> cases inclusive <;>
    simp only [Interp.evaluate_range, Bool.false_eq_true, eq_self_iff_true,
      if_false, if_true] at h
  all_goals try exact Except.noConfusion h
  all_goals
    split at h
    case isTrue hle =>
      simp only [Except.ok.injEq, Interp.Value.range.injEq] at h
      obtain ⟨rfl, rfl⟩ := h
      exact hle
    case isFalse => exact Except.noConfusion h

/-- C9 witness: `0..3` evaluates to `Range(0, 3)` and `0 ≤ 3`. -/
theorem C9_range_min_le_max_witness :
    Interp.evaluate_range (.number (.finite 0)) (.number (.finite 3)) false =
      .ok (.range 0 3) ∧ (0 : Int) ≤ 3 :=
  ⟨rfl, C9_range_min_le_max (.number (.finite 0)) (.number (.finite 3))
    false 0 3 rfl⟩

/-- C6: calling a declared function of arity `k` with `k + 1` arguments
fails with the `Incorrect argument count` runtime error, and neither the
argument expressions nor the body are evaluated (the result is the error
for every possible evaluation continuation). -/
theorem C6_arity_error : ∀ (f : Interp.FunctionAst) (k idLen : Nat)
    (evalArgsAndBody : Unit → Except Interp.Error Interp.Value),
    f.args.length = k →
    Interp.call_function idLen f (k + 1) evalArgsAndBody =
      .error .incorrectArgumentCount := by
  intro f k idLen evalArgsAndBody hk
  by_cases hc : 1 < idLen ∧ 0 < f.args.length ∧ f.args.head? = some "self"
  · have h1 : 0 < f.args.length := hc.2.1
    simp only [Interp.call_function, if_pos hc]
    rw [if_pos (by omega)]
  · simp only [Interp.call_function, if_neg hc]
    rw [if_pos (by omega)]

/-- C6 witness: a one-parameter function called directly with two arguments
raises the argument-count error. -/
theorem C6_arity_error_witness :
    (⟨["a"], 0⟩ : Interp.FunctionAst).args.length = 1 ∧
    Interp.call_function 1 ⟨["a"], 0⟩ 2 (fun _ => .ok .empty) =
      .error .incorrectArgumentCount :=
  ⟨rfl, C6_arity_error ⟨["a"], 0⟩ 1 1 (fun _ => .ok .empty) rfl⟩

/-- C7: expanding a `Range` pushes the successive integers from the start
bound (inclusive) to the end bound (exclusive), as `f64` numbers:
`Range(a, a)` expands to nothing, `Range(a, a+1)` to exactly `a`, and in
general the expansion has `(max - min)` elements whose `k`-th element is
`min + k`. -/
theorem C7_range_expansion :
    (∀ a : Int, Interp.expand_range a a = []) ∧
    (∀ a : Int, Interp.expand_range a (a + 1) =
      [.number (.finite ((a : Int) : ℚ))]) ∧
    (∀ mn mx : Int, (Interp.expand_range mn mx).length = (mx - mn).toNat) ∧
    (∀ (mn mx : Int) (k : Nat), k < (mx - mn).toNat →
      (Interp.expand_range mn mx).get? k =
        some (.number (.finite ((mn + (k : Int) : Int) : ℚ)))) := by
  refine ⟨?_, ?_, ?_, ?_⟩
  · intro a
    simp only [Interp.expand_range, Int.sub_self, Int.toNat_zero,
      List.range_zero, List.map_nil]
  · intro a
    have h1 : (a + 1 - a : ℤ) = 1 := by omega
    simp [Interp.expand_range, h1, List.range_succ]
  · intro mn mx
    simp only [Interp.expand_range, List.length_map, List.length_range]
  · intro mn mx k hk
    simp only [Interp.expand_range, List.get?_eq_getElem?, List.getElem?_map,
      List.getElem?_range hk]
    rfl

/-- C7 witness: expanding `Range(0, 2)` yields `0` at position `1 < 2`. -/
theorem C7_range_expansion_witness :
    1 < ((2 : Int) - 0).toNat ∧
    (Interp.expand_range 0 2).get? 1 =
      some (.number (.finite ((0 + ((1 : Nat) : Int) : Int) : ℚ))) :=
  ⟨by decide, C7_range_expansion.2.2.2 0 2 1 (by decide)⟩

/-- Rust's saturating `f64 as usize` cast is the identity on list lengths
below `2^64`. -/
theorem f64_as_usize_natCast (len : Nat) (h : len < 2 ^ 64) :
    Float64.f64_as_usize (.finite (len : ℚ)) = len := by
  simp only [Float64.f64_as_usize, Float64.ratTrunc, Rat.num_natCast,
    Rat.den_natCast, Nat.cast_one, Int.tdiv_one]
  have h0 : ¬((len : Int) < 0) := by omega
  rw [if_neg h0, Int.toNat_natCast]
  omega

/-- Rust's saturating `f64 as usize` cast sends `-1.0` to `0`. -/
theorem f64_as_usize_neg_one : Float64.f64_as_usize (.finite (-1)) = 0 := by
  decide

/-- C3 counterexample: indexing `[10, 20]` with `-1` neither raises an
error nor returns the last element: the `i as usize` cast saturates `-1.0`
to `0`, so the read returns the first element `10` and the indexed
assignment overwrites the first element — the same holds for writes, so the
behaviour is consistent but is a third behaviour, not one of the two the
claim allows. -/
theorem C3_negative_index_counterexample :
    Interp.list_index
        (.cons (.number (.finite 10)) (.cons (.number (.finite 20)) .nil))
        (.number (.finite (-1))) =
      .ok (.number (.finite 10)) ∧
    Interp.set_list_value
        (.list (.cons (.number (.finite 10))
          (.cons (.number (.finite 20)) .nil)))
        (.number (.finite (-1))) (.number (.finite 99)) =
      .ok (.cons (.number (.finite 99)) (.cons (.number (.finite 20)) .nil)) ∧
    (Interp.Value.number (.finite 10)) ≠ (.number (.finite 20)) := by
  refine ⟨rfl, rfl, ?_⟩
  intro h
  cases h

/-- C3 (amended): for a list of length `n` (below `2^64`), both the read
and the indexed assignment with index `n` raise the out-of-bounds error;
with index `-1` the saturating `f64 as usize` cast yields index `0`, so
both consistently access the first element when the list is non-empty and
both raise the out-of-bounds error when it is empty. -/
theorem C3_index_boundaries : ∀ (xs : Interp.VList) (v : Interp.Value),
    xs.length < 2 ^ 64 →
    (Interp.list_index xs (.number (.finite (xs.length : ℚ))) =
        .error .indexOutOfBounds ∧
      Interp.set_list_value (.list xs) (.number (.finite (xs.length : ℚ))) v =
        .error .indexOutOfBounds ∧
      (0 < xs.length →
        Interp.list_index xs (.number (.finite (-1))) =
            .ok (xs.getD 0 .empty) ∧
          Interp.set_list_value (.list xs) (.number (.finite (-1))) v =
            .ok (xs.set 0 v)) ∧
      (xs.length = 0 →
        Interp.list_index xs (.number (.finite (-1))) =
            .error .indexOutOfBounds ∧
          Interp.set_list_value (.list xs) (.number (.finite (-1))) v =
            .error .indexOutOfBounds)) := by
  intro xs v hlen
  refine ⟨?_, ?_, ?_, ?_⟩
  · simp only [Interp.list_index, f64_as_usize_natCast xs.length hlen,
      lt_irrefl, if_false]
  · simp only [Interp.set_list_value, f64_as_usize_natCast xs.length hlen,
      lt_irrefl, if_false]
  · intro hpos
    constructor
    · simp only [Interp.list_index, f64_as_usize_neg_one, if_pos hpos]
    · simp only [Interp.set_list_value, f64_as_usize_neg_one, if_pos hpos]
  · intro hzero
    constructor
    · simp only [Interp.list_index, f64_as_usize_neg_one, hzero, lt_irrefl,
        if_false]
    · simp only [Interp.set_list_value, f64_as_usize_neg_one, hzero,
        lt_irrefl, if_false]

/-- C3 witness: the boundary behaviour at the concrete list `[10]`. -/
theorem C3_index_boundaries_witness :
    (Interp.VList.cons (.number (.finite 10)) .nil).length < 2 ^ 64 ∧
    (Interp.list_index (.cons (.number (.finite 10)) .nil)
        (.number (.finite ((Interp.VList.cons (.number (.finite 10))
          .nil).length : ℚ))) = .error .indexOutOfBounds ∧
      Interp.set_list_value (.list (.cons (.number (.finite 10)) .nil))
        (.number (.finite ((Interp.VList.cons (.number (.finite 10))
          .nil).length : ℚ))) (.number (.finite 3)) =
        .error .indexOutOfBounds ∧
      (0 < (Interp.VList.cons (.number (.finite 10)) .nil).length →
        Interp.list_index (.cons (.number (.finite 10)) .nil)
            (.number (.finite (-1))) =
          .ok ((Interp.VList.cons (.number (.finite 10)) .nil).getD 0
            .empty) ∧
        Interp.set_list_value (.list (.cons (.number (.finite 10)) .nil))
            (.number (.finite (-1))) (.number (.finite 3)) =
          .ok ((Interp.VList.cons (.number (.finite 10)) .nil).set 0
            (.number (.finite 3)))) ∧
      ((Interp.VList.cons (.number (.finite 10)) .nil).length = 0 →
        Interp.list_index (.cons (.number (.finite 10)) .nil)
            (.number (.finite (-1))) = .error .indexOutOfBounds ∧
        Interp.set_list_value (.list (.cons (.number (.finite 10)) .nil))
            (.number (.finite (-1))) (.number (.finite 3)) =
          .error .indexOutOfBounds)) :=
  ⟨by decide, C3_index_boundaries (.cons (.number (.finite 10)) .nil)
    (.number (.finite 3)) (by decide)⟩

/-- C5: a value is accepted as a map key exactly when it is `Null`, a
`Bool`, a `Number`, a `Range`, a `Str`, or a hashable `Tuple`; every other
variant is rejected; and a tuple's hashability is the conjunction of its
elements' hashability. -/
theorem C5_map_key_acceptance : ∀ v : Core.Value,
    (Core.accepted_as_map_key v = true ↔
      (v = .null ∨ (∃ b, v = .bool b) ∨ (∃ n, v = .number n) ∨
        (∃ r, v = .range r) ∨ (∃ s, v = .str s) ∨
        (∃ xs, v = .tuple xs ∧ Core.is_hashable_vec xs = true))) ∧
    Core.is_hashable (.tuple .nil) = true ∧
    (∀ x rest, Core.is_hashable (.tuple (.cons x rest)) =
      (Core.is_hashable x && Core.is_hashable (.tuple rest))) := by
  intro v
  refine ⟨?_, rfl, fun x rest => rfl⟩
  cases v <;> simp [Core.accepted_as_map_key, Core.is_hashable]

/-- C5 witness: the string key `"k"` is accepted, by the characterization
applied at `Str "k"`. -/
theorem C5_map_key_acceptance_witness :
    Core.accepted_as_map_key (.str "k") = true :=
  ((C5_map_key_acceptance (.str "k")).1).mpr
    (Or.inr (Or.inr (Or.inr (Or.inr (Or.inl ⟨"k", rfl⟩)))))

/-- IEEE equality is reflexive away from `nan`. -/
theorem Float64.feq_refl : ∀ x : Float64, x ≠ Float64.nan →
    Float64.feq x x = true := by
  intro x h
  cases x <;> simp_all [Float64.feq]

/-- IEEE equality is symmetric. -/
theorem Float64.feq_symm : ∀ a b : Float64, Float64.feq a b = true →
    Float64.feq b a = true := by
  intro a b h
  cases a <;> cases b <;> simp_all [Float64.feq]

/-- IEEE equality is transitive (nothing is ever equal to `nan`). -/
theorem Float64.feq_trans : ∀ a b c : Float64, Float64.feq a b = true →
    Float64.feq b c = true → Float64.feq a c = true := by
  intro a b c h1 h2
  cases a <;> cases b <;> cases c <;> simp_all [Float64.feq]

mutual

/-- Value equality is reflexive on `nan`-free values. -/
theorem Interp.value_eq_refl : ∀ a : Interp.Value,
    Interp.nan_free a = true → Interp.value_eq a a = true
  | .empty, _ => rfl
  | .bool b, _ => by simp [Interp.value_eq]
  | .number x, h => by
    simp only [Interp.nan_free, bne_iff_ne, ne_eq] at h
    simp [Interp.value_eq, Float64.feq_refl x h]
  | .vec4 a b c d, h => by
    simp only [Interp.nan_free, Bool.and_eq_true, bne_iff_ne, ne_eq] at h
    obtain ⟨⟨⟨h1, h2⟩, h3⟩, h4⟩ := h
    simp [Interp.value_eq, Float64.feq_refl _ h1, Float64.feq_refl _ h2,
      Float64.feq_refl _ h3, Float64.feq_refl _ h4]
  | .str s, _ => by simp [Interp.value_eq]
  | .list xs, h => by
    simp only [Interp.nan_free] at h
    simpa [Interp.value_eq] using Interp.vlist_eq_refl xs h
  | .map xs, h => by
    simp only [Interp.nan_free] at h
    simpa [Interp.value_eq] using Interp.ventries_eq_refl xs h
  | .function f, _ => by simp [Interp.value_eq]
  | .externalFunction n, _ => by simp [Interp.value_eq]
  | .forLoop n, _ => by simp [Interp.value_eq]
  | .builtinValue n, _ => by simp [Interp.value_eq]
  | .range p q, _ => by simp [Interp.value_eq]

/-- List-content equality is reflexive on `nan`-free contents. -/
theorem Interp.vlist_eq_refl : ∀ xs : Interp.VList,
    Interp.vlist_nan_free xs = true → Interp.vlist_eq xs xs = true
  | .nil, _ => rfl
  | .cons x rest, h => by
    simp only [Interp.vlist_nan_free, Bool.and_eq_true] at h
    simp [Interp.vlist_eq, Interp.value_eq_refl x h.1,
      Interp.vlist_eq_refl rest h.2]

/-- Map-entry equality is reflexive on `nan`-free entries. -/
theorem Interp.ventries_eq_refl : ∀ xs : Interp.VEntries,
    Interp.ventries_nan_free xs = true → Interp.ventries_eq xs xs = true
  | .nil, _ => rfl
  | .cons k v rest, h => by
    simp only [Interp.ventries_nan_free, Bool.and_eq_true] at h
    simp [Interp.ventries_eq, Interp.value_eq_refl v h.1,
      Interp.ventries_eq_refl rest h.2]

end

mutual

/-- Value equality is symmetric. -/
theorem Interp.value_eq_symm : ∀ a b : Interp.Value,
    Interp.value_eq a b = true → Interp.value_eq b a = true
  | .number x, b, h => by
    cases b <;> simp only [Interp.value_eq, Bool.false_eq_true] at h ⊢
    exact Float64.feq_symm _ _ h
  | .vec4 x0 x1 x2 x3, b, h => by
    cases b <;>
      simp only [Interp.value_eq, Bool.false_eq_true, Bool.and_eq_true] at h ⊢
    obtain ⟨⟨⟨h0, h1⟩, h2⟩, h3⟩ := h
    exact ⟨⟨⟨Float64.feq_symm _ _ h0, Float64.feq_symm _ _ h1⟩,
      Float64.feq_symm _ _ h2⟩, Float64.feq_symm _ _ h3⟩
  | .list xs, b, h => by
    cases b <;> simp only [Interp.value_eq, Bool.false_eq_true] at h ⊢
    exact Interp.vlist_eq_symm xs _ h
  | .map xs, b, h => by
    cases b <;> simp only [Interp.value_eq, Bool.false_eq_true] at h ⊢
    exact Interp.ventries_eq_symm xs _ h
  | .empty, b, h => by cases b <;> simp_all [Interp.value_eq]
  | .bool x, b, h => by cases b <;> simp_all [Interp.value_eq]
  | .str s, b, h => by cases b <;> simp_all [Interp.value_eq]
  | .function f, b, h => by cases b <;> simp_all [Interp.value_eq]
  | .externalFunction n, b, h => by cases b <;> simp_all [Interp.value_eq]
  | .forLoop n, b, h => by cases b <;> simp_all [Interp.value_eq]
  | .builtinValue n, b, h => by cases b <;> simp_all [Interp.value_eq]
  | .range p q, b, h => by cases b <;> simp_all [Interp.value_eq]

/-- List-content equality is symmetric. -/
theorem Interp.vlist_eq_symm : ∀ xs ys : Interp.VList,
    Interp.vlist_eq xs ys = true → Interp.vlist_eq ys xs = true
  | .nil, ys, h => by cases ys <;> simp_all [Interp.vlist_eq]
  | .cons x rest, ys, h => by
    cases ys with
    | nil => simp_all [Interp.vlist_eq]
    | cons y rest2 =>
      simp only [Interp.vlist_eq, Bool.and_eq_true] at h ⊢
      exact ⟨Interp.value_eq_symm x y h.1, Interp.vlist_eq_symm rest rest2 h.2⟩

/-- Map-entry equality is symmetric. -/
theorem Interp.ventries_eq_symm : ∀ xs ys : Interp.VEntries,
    Interp.ventries_eq xs ys = true → Interp.ventries_eq ys xs = true
  | .nil, ys, h => by cases ys <;> simp_all [Interp.ventries_eq]
  | .cons k v rest, ys, h => by
    cases ys with
    | nil => simp_all [Interp.ventries_eq]
    | cons k2 v2 rest2 =>
      simp only [Interp.ventries_eq, Bool.and_eq_true] at h ⊢
      obtain ⟨⟨hk, hv⟩, hr⟩ := h
      refine ⟨⟨?_, Interp.value_eq_symm v v2 hv⟩,
        Interp.ventries_eq_symm rest rest2 hr⟩
      simp_all

end

mutual

/-- Value equality is transitive. -/
theorem Interp.value_eq_trans : ∀ a b c : Interp.Value,
    Interp.value_eq a b = true → Interp.value_eq b c = true →
    Interp.value_eq a c = true
  | .number x, b, c, h1, h2 => by
    cases b <;> simp only [Interp.value_eq, Bool.false_eq_true] at h1
    cases c <;> simp only [Interp.value_eq, Bool.false_eq_true] at h2 ⊢
    exact Float64.feq_trans _ _ _ h1 h2
  | .vec4 x0 x1 x2 x3, b, c, h1, h2 => by
    cases b <;>
      simp only [Interp.value_eq, Bool.false_eq_true, Bool.and_eq_true] at h1
    cases c <;>
      simp only [Interp.value_eq, Bool.false_eq_true, Bool.and_eq_true] at h2 ⊢
    obtain ⟨⟨⟨g0, g1⟩, g2⟩, g3⟩ := h1
    obtain ⟨⟨⟨k0, k1⟩, k2⟩, k3⟩ := h2
    exact ⟨⟨⟨Float64.feq_trans _ _ _ g0 k0, Float64.feq_trans _ _ _ g1 k1⟩,
      Float64.feq_trans _ _ _ g2 k2⟩, Float64.feq_trans _ _ _ g3 k3⟩
  | .list xs, b, c, h1, h2 => by
    cases b <;> simp only [Interp.value_eq, Bool.false_eq_true] at h1
    cases c <;> simp only [Interp.value_eq, Bool.false_eq_true] at h2 ⊢
    exact Interp.vlist_eq_trans xs _ _ h1 h2
  | .map xs, b, c, h1, h2 => by
    cases b <;> simp only [Interp.value_eq, Bool.false_eq_true] at h1
    cases c <;> simp only [Interp.value_eq, Bool.false_eq_true] at h2 ⊢
    exact Interp.ventries_eq_trans xs _ _ h1 h2
  | .empty, b, c, h1, h2 => by
    cases b <;> cases c <;> simp_all [Interp.value_eq]
  | .bool x, b, c, h1, h2 => by
    cases b <;> cases c <;> simp_all [Interp.value_eq]
  | .str s, b, c, h1, h2 => by
    cases b <;> cases c <;> simp_all [Interp.value_eq]
  | .function f, b, c, h1, h2 => by
    cases b <;> cases c <;> simp_all [Interp.value_eq]
  | .externalFunction n, b, c, h1, h2 => by
    cases b <;> cases c <;> simp_all [Interp.value_eq]
  | .forLoop n, b, c, h1, h2 => by
    cases b <;> cases c <;> simp_all [Interp.value_eq]
  | .builtinValue n, b, c, h1, h2 => by
    cases b <;> cases c <;> simp_all [Interp.value_eq]
  | .range p q, b, c, h1, h2 => by
    cases b <;> cases c <;> simp_all [Interp.value_eq]

/-- List-content equality is transitive. -/
theorem Interp.vlist_eq_trans : ∀ xs ys zs : Interp.VList,
    Interp.vlist_eq xs ys = true → Interp.vlist_eq ys zs = true →
    Interp.vlist_eq xs zs = true
  | .nil, ys, zs, h1, h2 => by
    cases ys <;> cases zs <;> simp_all [Interp.vlist_eq]
  | .cons x rest, ys, zs, h1, h2 => by
    cases ys with
    | nil => simp_all [Interp.vlist_eq]
    | cons y rest2 =>
      cases zs with
      | nil => simp_all [Interp.vlist_eq]
      | cons z rest3 =>
        simp only [Interp.vlist_eq, Bool.and_eq_true] at h1 h2 ⊢
        exact ⟨Interp.value_eq_trans x y z h1.1 h2.1,
          Interp.vlist_eq_trans rest rest2 rest3 h1.2 h2.2⟩

/-- Map-entry equality is transitive. -/
theorem Interp.ventries_eq_trans : ∀ xs ys zs : Interp.VEntries,
    Interp.ventries_eq xs ys = true → Interp.ventries_eq ys zs = true →
    Interp.ventries_eq xs zs = true
  | .nil, ys, zs, h1, h2 => by
    cases ys <;> cases zs <;> simp_all [Interp.ventries_eq]
  | .cons k v rest, ys, zs, h1, h2 => by
    cases ys with
    | nil => simp_all [Interp.ventries_eq]
    | cons k2 v2 rest2 =>
      cases zs with
      | nil => simp_all [Interp.ventries_eq]
      | cons k3 v3 rest3 =>
        simp only [Interp.ventries_eq, Bool.and_eq_true] at h1 h2 ⊢
        obtain ⟨⟨hk1, hv1⟩, hr1⟩ := h1
        obtain ⟨⟨hk2, hv2⟩, hr2⟩ := h2
        refine ⟨⟨?_, Interp.value_eq_trans v v2 v3 hv1 hv2⟩,
          Interp.ventries_eq_trans rest rest2 rest3 hr1 hr2⟩
        simp_all

end

/-- C4 counterexample: `NaN` numbers are reachable (`0.0 / 0.0`) and the
`Equal` operator is not reflexive on them: comparing a `NaN` number with
itself yields `false`, following IEEE-754. -/
theorem C4_equality_not_reflexive_on_nan :
    Interp.binaryOp .divide (.number (.finite 0)) (.number (.finite 0)) =
      .ok (.number .nan) ∧
    Interp.binaryOp .equal (.number .nan) (.number .nan) =
      .ok (.bool false) :=
  ⟨rfl, rfl⟩

/-- C4 (amended): the `Equal` operator is symmetric and transitive on all
values, and reflexive on every value that contains no `NaN` float. -/
theorem C4_equality_equivalence : ∀ a b c : Interp.Value,
    (Interp.nan_free a = true →
      Interp.binaryOp .equal a a = .ok (.bool true)) ∧
    (Interp.binaryOp .equal a b = .ok (.bool true) →
      Interp.binaryOp .equal b a = .ok (.bool true)) ∧
    (Interp.binaryOp .equal a b = .ok (.bool true) →
      Interp.binaryOp .equal b c = .ok (.bool true) →
      Interp.binaryOp .equal a c = .ok (.bool true)) := by
  intro a b c
  have heq : ∀ x y : Interp.Value,
      Interp.binaryOp .equal x y = .ok (.bool (Interp.value_eq x y)) :=
    fun _ _ => rfl
  refine ⟨?_, ?_, ?_⟩
  · intro h
    rw [heq, Interp.value_eq_refl a h]
  · intro h
    rw [heq] at h
    simp only [Except.ok.injEq, Interp.Value.bool.injEq] at h
    rw [heq, Interp.value_eq_symm a b h]
  · intro h1 h2
    rw [heq] at h1 h2
    simp only [Except.ok.injEq, Interp.Value.bool.injEq] at h1 h2
    rw [heq, Interp.value_eq_trans a b c h1 h2]

/-- C4 witness: the equivalence laws applied at the concrete number `1`. -/
theorem C4_equality_equivalence_witness :
    Interp.nan_free (.number (.finite 1)) = true ∧
    Interp.binaryOp .equal (.number (.finite 1)) (.number (.finite 1)) =
      .ok (.bool true) :=
  ⟨by decide,
    (C4_equality_equivalence (.number (.finite 1)) (.number (.finite 1))
      (.number (.finite 1))).1 (by decide)⟩

mutual

/-- The handle allocator of `deep_copy` never decreases. -/
theorem Core.deep_copy_le : ∀ (v : Core.Value) (n : Nat),
    n ≤ (Core.deep_copy v n).2
  | .null, n => Nat.le_refl n
  | .bool _, n => Nat.le_refl n
  | .number _, n => Nat.le_refl n
  | .range _, n => Nat.le_refl n
  | .str _, n => Nat.le_refl n
  | .simpleFunction _ _ _, n => Nat.le_refl n
  | .function _, n => Nat.le_refl n
  | .externalFunction _, n => Nat.le_refl n
  | .generator _, n => Nat.le_refl n
  | .temporaryTuple _ _, n => Nat.le_refl n
  | .sequenceBuilder _, n => Nat.le_refl n
  | .stringBuilder _, n => Nat.le_refl n
  | .iterator _, n => Nat.le_succ n
  | .object _, n => Nat.le_succ n
  | .list _ xs, n => Nat.le_succ_of_le (Core.deep_copy_vec_le xs n)
  | .tuple xs, n => Core.deep_copy_vec_le xs n
  | .map _ es .none, n => Nat.le_succ_of_le (Core.deep_copy_entries_le es n)
  | .map _ es (.some _ _), n =>
    Nat.le_succ_of_le (Nat.le_succ_of_le (Core.deep_copy_entries_le es n))

/-- Allocator monotonicity over vec contents. -/
theorem Core.deep_copy_vec_le : ∀ (xs : Core.ValueVec) (n : Nat),
    n ≤ (Core.deep_copy_vec xs n).2
  | .nil, n => Nat.le_refl n
  | .cons v rest, n =>
    Nat.le_trans (Core.deep_copy_le v n)
      (Core.deep_copy_vec_le rest (Core.deep_copy v n).2)

/-- Allocator monotonicity over map entries. -/
theorem Core.deep_copy_entries_le : ∀ (es : Core.ValueEntries) (n : Nat),
    n ≤ (Core.deep_copy_entries es n).2
  | .nil, n => Nat.le_refl n
  | .cons _ v rest, n =>
    Nat.le_trans (Core.deep_copy_le v n)
      (Core.deep_copy_entries_le rest (Core.deep_copy v n).2)

end

mutual

/-- Structural equality is reflexive. -/
theorem Core.structEq_refl : ∀ v : Core.Value, Core.structEq v v = true
  | .null => by simp [Core.structEq]
  | .bool b => by simp [Core.structEq]
  | .number x => by simp [Core.structEq]
  | .range r => by simp [Core.structEq]
  | .list h xs => by simpa [Core.structEq] using Core.structEq_vec_refl xs
  | .tuple xs => by simpa [Core.structEq] using Core.structEq_vec_refl xs
  | .map h es meta => by
    simp only [Core.structEq, Bool.and_eq_true]
    exact ⟨Core.structEq_entries_refl es, Core.structEq_meta_refl meta⟩
  | .str s => by simp [Core.structEq]
  | .simpleFunction c i a => by simp [Core.structEq]
  | .function f => by simpa [Core.structEq] using Core.structEq_info_refl f
  | .externalFunction h => by simp [Core.structEq]
  | .generator f => by simpa [Core.structEq] using Core.structEq_info_refl f
  | .iterator h => by simp [Core.structEq]
  | .object h => by simp [Core.structEq]
  | .temporaryTuple s c => by simp [Core.structEq]
  | .sequenceBuilder xs => by
    simpa [Core.structEq] using Core.structEq_vec_refl xs
  | .stringBuilder s => by simp [Core.structEq]

/-- Structural equality of vec contents is reflexive. -/
theorem Core.structEq_vec_refl : ∀ xs : Core.ValueVec,
    Core.structEq_vec xs xs = true
  | .nil => by simp [Core.structEq_vec]
  | .cons v rest => by
    simp only [Core.structEq_vec, Bool.and_eq_true]
    exact ⟨Core.structEq_refl v, Core.structEq_vec_refl rest⟩

/-- Structural equality of map entries is reflexive. -/
theorem Core.structEq_entries_refl : ∀ es : Core.ValueEntries,
    Core.structEq_entries es es = true
  | .nil => by simp [Core.structEq_entries]
  | .cons k v rest => by
    simp only [Core.structEq_entries, Bool.and_eq_true]
    exact ⟨⟨Core.structEq_refl k, Core.structEq_refl v⟩,
      Core.structEq_entries_refl rest⟩

/-- Structural equality of function infos is reflexive. -/
theorem Core.structEq_info_refl : ∀ f : Core.FunctionInfo,
    Core.structEq_info f f = true
  | .mk c i a vr u cap => by
    simp only [Core.structEq_info, Bool.and_eq_true]
    refine ⟨⟨⟨⟨⟨?_, ?_⟩, ?_⟩, ?_⟩, ?_⟩, Core.structEq_captures_refl cap⟩ <;> simp

/-- Structural equality of captures is reflexive. -/
theorem Core.structEq_captures_refl : ∀ cap : Core.OptCaptures,
    Core.structEq_captures cap cap = true
  | .none => by simp [Core.structEq_captures]
  | .some h xs => by
    simpa [Core.structEq_captures] using Core.structEq_vec_refl xs

/-- Structural equality of meta-maps is reflexive. -/
theorem Core.structEq_meta_refl : ∀ meta : Core.OptMetaMap,
    Core.structEq_meta meta meta = true
  | .none => by simp [Core.structEq_meta]
  | .some h xs => by
    simpa [Core.structEq_meta] using Core.structEq_vec_refl xs

end

mutual

/-- A deep copy is structurally equal to the original. -/
theorem Core.deep_copy_structEq : ∀ (v : Core.Value) (n : Nat),
    Core.structEq (Core.deep_copy v n).1 v = true
  | .null, n => by simp [Core.deep_copy, Core.structEq]
  | .bool b, n => by simp [Core.deep_copy, Core.structEq]
  | .number x, n => by simp [Core.deep_copy, Core.structEq]
  | .range r, n => by simp [Core.deep_copy, Core.structEq]
  | .str s, n => by simp [Core.deep_copy, Core.structEq]
  | .simpleFunction c i a, n => by simp [Core.deep_copy, Core.structEq]
  | .function f, n => by
    simpa [Core.deep_copy, Core.structEq] using Core.structEq_info_refl f
  | .externalFunction h, n => by simp [Core.deep_copy, Core.structEq]
  | .generator f, n => by
    simpa [Core.deep_copy, Core.structEq] using Core.structEq_info_refl f
  | .temporaryTuple s c, n => by simp [Core.deep_copy, Core.structEq]
  | .sequenceBuilder xs, n => by
    simpa [Core.deep_copy, Core.structEq] using Core.structEq_vec_refl xs
  | .stringBuilder s, n => by simp [Core.deep_copy, Core.structEq]
  | .iterator h, n => by simp [Core.deep_copy, Core.structEq]
  | .object h, n => by simp [Core.deep_copy, Core.structEq]
  | .list h xs, n => by
    simpa [Core.deep_copy, Core.structEq] using
      Core.deep_copy_vec_structEq xs n
  | .tuple xs, n => by
    simpa [Core.deep_copy, Core.structEq] using
      Core.deep_copy_vec_structEq xs n
  | .map h es .none, n => by
    simp only [Core.deep_copy, Core.structEq, Bool.and_eq_true]
    exact ⟨Core.deep_copy_entries_structEq es n, by simp [Core.structEq_meta]⟩
  | .map h es (.some hm vals), n => by
    simp only [Core.deep_copy, Core.structEq, Bool.and_eq_true]
    exact ⟨Core.deep_copy_entries_structEq es n,
      by simpa [Core.structEq_meta] using Core.structEq_vec_refl vals⟩

/-- Deep copies of vec contents are structurally equal originals. -/
theorem Core.deep_copy_vec_structEq : ∀ (xs : Core.ValueVec) (n : Nat),
    Core.structEq_vec (Core.deep_copy_vec xs n).1 xs = true
  | .nil, n => by simp [Core.deep_copy_vec, Core.structEq_vec]
  | .cons v rest, n => by
    simp only [Core.deep_copy_vec, Core.structEq_vec, Bool.and_eq_true]
    exact ⟨Core.deep_copy_structEq v n,
      Core.deep_copy_vec_structEq rest (Core.deep_copy v n).2⟩

/-- Deep copies of map entries are structurally equal originals. -/
theorem Core.deep_copy_entries_structEq : ∀ (es : Core.ValueEntries) (n : Nat),
    Core.structEq_entries (Core.deep_copy_entries es n).1 es = true
  | .nil, n => by simp [Core.deep_copy_entries, Core.structEq_entries]
  | .cons k v rest, n => by
    simp only [Core.deep_copy_entries, Core.structEq_entries, Bool.and_eq_true]
    exact ⟨⟨Core.structEq_refl k, Core.deep_copy_structEq v n⟩,
      Core.deep_copy_entries_structEq rest (Core.deep_copy v n).2⟩

end

/-- A handle-free value reaches no mutable handles. -/
theorem Core.handle_free_handles : ∀ v : Core.Value,
    Core.handle_free v = true → Core.mut_handles v = [] := by
  intro v h
  simpa [Core.handle_free] using h

/-- Handle-free vec contents reach no mutable handles. -/
theorem Core.handle_free_vec_handles : ∀ xs : Core.ValueVec,
    Core.handle_free_vec xs = true → Core.mut_handles_vec xs = []
  | .nil, _ => by simp [Core.mut_handles_vec]
  | .cons v rest, h => by
    simp only [Core.handle_free_vec, Bool.and_eq_true] at h
    simp [Core.mut_handles_vec, Core.handle_free_handles v h.1,
      Core.handle_free_vec_handles rest h.2]

mutual

/-- On the clean fragment every mutable handle of the copy is freshly
allocated (at least the allocator input). -/
theorem Core.deep_copy_fresh : ∀ (v : Core.Value) (n : Nat),
    Core.copy_clean v = true →
    ∀ x ∈ Core.mut_handles (Core.deep_copy v n).1, n ≤ x
  | .null, n, _ => by simp [Core.deep_copy, Core.mut_handles]
  | .bool b, n, _ => by simp [Core.deep_copy, Core.mut_handles]
  | .number x, n, _ => by simp [Core.deep_copy, Core.mut_handles]
  | .range r, n, _ => by simp [Core.deep_copy, Core.mut_handles]
  | .str s, n, _ => by simp [Core.deep_copy, Core.mut_handles]
  | .simpleFunction c i a, n, _ => by simp [Core.deep_copy, Core.mut_handles]
  | .externalFunction h, n, _ => by simp [Core.deep_copy, Core.mut_handles]
  | .temporaryTuple s c, n, _ => by simp [Core.deep_copy, Core.mut_handles]
  | .stringBuilder s, n, _ => by simp [Core.deep_copy, Core.mut_handles]
  | .function (.mk c i a vr u .none), n, _ => by
    simp [Core.deep_copy, Core.mut_handles, Core.mut_handles_info]
  | .function (.mk c i a vr u (.some hh xs)), n, hc => by
    simp [Core.copy_clean, Core.copy_clean_info] at hc
  | .generator (.mk c i a vr u .none), n, _ => by
    simp [Core.deep_copy, Core.mut_handles, Core.mut_handles_info]
  | .generator (.mk c i a vr u (.some hh xs)), n, hc => by
    simp [Core.copy_clean, Core.copy_clean_info] at hc
  | .sequenceBuilder xs, n, hc => by
    simp only [Core.copy_clean] at hc
    simp [Core.deep_copy, Core.mut_handles,
      Core.handle_free_vec_handles xs hc]
  | .iterator h, n, _ => by simp [Core.deep_copy, Core.mut_handles]
  | .object h, n, _ => by simp [Core.deep_copy, Core.mut_handles]
  | .list h xs, n, hc => by
    simp only [Core.copy_clean] at hc
    simp only [Core.deep_copy, Core.mut_handles, List.mem_cons]
    intro x hx
    rcases hx with rfl | hx
    · exact Core.deep_copy_vec_le xs n
    · exact Core.deep_copy_vec_fresh xs n hc x hx
  | .tuple xs, n, hc => by
    simp only [Core.copy_clean] at hc
    simp only [Core.deep_copy, Core.mut_handles]
    exact Core.deep_copy_vec_fresh xs n hc
  | .map h es .none, n, hc => by
    simp only [Core.copy_clean, Core.copy_clean_meta, Bool.and_eq_true] at hc
    simp only [Core.deep_copy, Core.mut_handles, Core.mut_handles_meta,
      List.append_nil, List.mem_cons]
    intro x hx
    rcases hx with rfl | hx
    · exact Core.deep_copy_entries_le es n
    · exact Core.deep_copy_entries_fresh es n hc.1 x hx
  | .map h es (.some hm vals), n, hc => by
    simp only [Core.copy_clean, Core.copy_clean_meta, Bool.and_eq_true] at hc
    simp only [Core.deep_copy, Core.mut_handles, Core.mut_handles_meta,
      List.mem_cons, List.mem_append,
      Core.handle_free_vec_handles vals hc.2]
    intro x hx
    rcases hx with rfl | hx | rfl | hx
    · exact Nat.le_succ_of_le (Core.deep_copy_entries_le es n)
    · exact Core.deep_copy_entries_fresh es n hc.1 x hx
    · exact Core.deep_copy_entries_le es n
    · simp at hx

/-- Freshness of copied vec contents on the clean fragment. -/
theorem Core.deep_copy_vec_fresh : ∀ (xs : Core.ValueVec) (n : Nat),
    Core.copy_clean_vec xs = true →
    ∀ x ∈ Core.mut_handles_vec (Core.deep_copy_vec xs n).1, n ≤ x
  | .nil, n, _ => by simp [Core.deep_copy_vec, Core.mut_handles_vec]
  | .cons v rest, n, hc => by
    simp only [Core.copy_clean_vec, Bool.and_eq_true] at hc
    simp only [Core.deep_copy_vec, Core.mut_handles_vec, List.mem_append]
    intro x hx
    rcases hx with hx | hx
    · exact Core.deep_copy_fresh v n hc.1 x hx
    · exact Nat.le_trans (Core.deep_copy_le v n)
        (Core.deep_copy_vec_fresh rest (Core.deep_copy v n).2 hc.2 x hx)

/-- Freshness of copied map entries on the clean fragment. -/
theorem Core.deep_copy_entries_fresh : ∀ (es : Core.ValueEntries) (n : Nat),
    Core.copy_clean_entries es = true →
    ∀ x ∈ Core.mut_handles_entries (Core.deep_copy_entries es n).1, n ≤ x
  | .nil, n, _ => by simp [Core.deep_copy_entries, Core.mut_handles_entries]
  | .cons k v rest, n, hc => by
    simp only [Core.copy_clean_entries, Bool.and_eq_true] at hc
    obtain ⟨⟨hk, hv⟩, hr⟩ := hc
    simp only [Core.deep_copy_entries, Core.mut_handles_entries,
      List.mem_append, List.nil_append, Core.handle_free_handles k hk]
    intro x hx
    rcases hx with hx | hx
    · exact Core.deep_copy_fresh v n hv x hx
    · exact Nat.le_trans (Core.deep_copy_le v n)
        (Core.deep_copy_entries_fresh rest (Core.deep_copy v n).2 hr x hx)

end


/-- C1 counterexample: `deep_copy` of a `Function` falls into the
`_ => self.clone()` arm, which shares the captures `ValueList` handle: for
the function with captures cell `5`, the copy (under a fresh allocator) is
the very same value, and the original and the copy share handle `5`, so the
no-shared-mutable-handles claim fails even though the copy succeeds. -/
theorem C1_deep_copy_shares_captures :
    Core.handles_below
      (.function (.mk 0 0 0 false false (.some 5 .nil))) 6 = true ∧
    Core.deep_copy (.function (.mk 0 0 0 false false (.some 5 .nil))) 6 =
      (.function (.mk 0 0 0 false false (.some 5 .nil)), 6) ∧
    Core.disjoint_handles (.function (.mk 0 0 0 false false (.some 5 .nil)))
      (Core.deep_copy (.function (.mk 0 0 0 false false (.some 5 .nil))) 6).1
      = false :=
  ⟨rfl, rfl, rfl⟩

/-- C1 (amended): for every value on which `deep_copy` succeeds, the copy
is structurally equal to the original; and whenever the shallowly-cloned
positions hold no mutable handles (no function/generator captures lists, no
handles inside map keys, meta-map values or sequence builders), the copy
shares no list, map, object, iterator or captures handle with the
original. -/
theorem C1_deep_copy_fresh_and_equal : ∀ (v : Core.Value) (n : Nat),
    Core.copy_clean v = true → Core.handles_below v n = true →
    Core.structEq (Core.deep_copy v n).1 v = true ∧
    Core.disjoint_handles v (Core.deep_copy v n).1 = true := by
  intro v n hc hb
  refine ⟨Core.deep_copy_structEq v n, ?_⟩
  simp only [Core.handles_below, List.all_eq_true, decide_eq_true_eq] at hb
  have hfresh := Core.deep_copy_fresh v n hc
  simp only [Core.disjoint_handles, List.all_eq_true]
  intro x hx
  have hxn : x < n := hb x hx
  simp only [Bool.not_eq_true']
  by_contra hcon
  simp only [Bool.not_eq_false] at hcon
  have hmem : x ∈ Core.mut_handles (Core.deep_copy v n).1 := by
    simpa using hcon
  exact absurd (hfresh x hmem) (by omega)

/-- C1 witness: the deep copy of the concrete list `[1]` (cell `0`, fresh
allocator `1`) is structurally equal and shares no handle. -/
theorem C1_deep_copy_fresh_and_equal_witness :
    Core.copy_clean (.list 0 (.cons (.number (.i64 1)) .nil)) = true ∧
    Core.handles_below (.list 0 (.cons (.number (.i64 1)) .nil)) 1 = true ∧
    (Core.structEq
        (Core.deep_copy (.list 0 (.cons (.number (.i64 1)) .nil)) 1).1
        (.list 0 (.cons (.number (.i64 1)) .nil)) = true ∧
      Core.disjoint_handles (.list 0 (.cons (.number (.i64 1)) .nil))
        (Core.deep_copy (.list 0 (.cons (.number (.i64 1)) .nil)) 1).1 =
        true) :=
  ⟨rfl, rfl, C1_deep_copy_fresh_and_equal
    (.list 0 (.cons (.number (.i64 1)) .nil)) 1 rfl rfl⟩

namespace KotoToml

mutual

/-- Decoding a TOML value never produces `Null` anywhere: the `Toml` type
has no null variant and every arm of `toml_to_koto_value` is null-free. -/
theorem toml_value_null_free : ∀ t : Toml,
    null_free (toml_to_koto_value t) = true
  | .boolean b => by simp [toml_to_koto_value, null_free]
  | .integer i => by simp [toml_to_koto_value, null_free]
  | .float x => by simp [toml_to_koto_value, null_free]
  | .string s => by simp [toml_to_koto_value, null_free]
  | .datetime s => by simp [toml_to_koto_value, null_free]
  | .array xs => by
    simpa [toml_to_koto_value, null_free] using toml_array_null_free xs
  | .table es => by
    simp only [toml_to_koto_value, null_free, null_free_meta,
      Bool.and_eq_true]
    exact ⟨toml_table_null_free es, trivial⟩

/-- Decoded array contents are null-free. -/
theorem toml_array_null_free : ∀ xs : TomlArray,
    null_free_vec (toml_array_values xs) = true
  | .nil => by simp [toml_array_values, null_free_vec]
  | .cons t rest => by
    simp only [toml_array_values, null_free_vec, Bool.and_eq_true]
    exact ⟨toml_value_null_free t, toml_array_null_free rest⟩

/-- Decoded table entries are null-free. -/
theorem toml_table_null_free : ∀ es : TomlTable,
    null_free_entries (toml_table_values es) = true
  | .nil => by simp [toml_table_values, null_free_entries]
  | .cons k t rest => by
    simp only [toml_table_values, null_free_entries, Bool.and_eq_true]
    refine ⟨⟨?_, toml_value_null_free t⟩, toml_table_null_free rest⟩
    simp [null_free]

end

end KotoToml

namespace KotoToml

mutual

/-- The TOML round trip returns a structurally equal value on the whole
null-free fragment. -/
theorem round_trip_fragment : ∀ v : Core.Value,
    in_fragment v = true → round_trip_ok v = true
  | .bool b, _ => by
    simp [round_trip_ok, round_trip, koto_to_toml, toml_to_koto_value,
      Core.structEq]
  | .number (.i64 n), _ => by
    simp [round_trip_ok, round_trip, koto_to_toml, toml_to_koto_value,
      Core.structEq]
  | .number (.f64 x), _ => by
    simp [round_trip_ok, round_trip, koto_to_toml, toml_to_koto_value,
      Core.structEq]
  | .str s, _ => by
    simp [round_trip_ok, round_trip, koto_to_toml, toml_to_koto_value,
      Core.structEq]
  | .list h xs, hf => by
    simp only [in_fragment] at hf
    have hvec := round_trip_vec_fragment xs hf
    cases hko : koto_vec_to_toml xs with
    | error e => simp [round_trip_vec_ok, hko] at hvec
    | ok a =>
      have h2 : Core.structEq_vec (toml_array_values a) xs = true := by
        simpa [round_trip_vec_ok, hko] using hvec
      simp [round_trip_ok, round_trip, koto_to_toml, hko,
        toml_to_koto_value, Core.structEq, h2]
  | .map h es .none, hf => by
    simp only [in_fragment] at hf
    have hent := round_trip_entries_fragment es hf
    cases hko : koto_entries_to_toml es with
    | error e => simp [round_trip_entries_ok, hko] at hent
    | ok t =>
      have h2 : Core.structEq_entries (toml_table_values t) es = true := by
        simpa [round_trip_entries_ok, hko] using hent
      simp [round_trip_ok, round_trip, koto_to_toml, hko,
        toml_to_koto_value, Core.structEq, Core.structEq_meta, h2]
  | .null, hf => by simp [in_fragment] at hf
  | .range r, hf => by simp [in_fragment] at hf
  | .tuple xs, hf => by simp [in_fragment] at hf
  | .map h es (.some hm vals), hf => by simp [in_fragment] at hf
  | .simpleFunction c i a, hf => by simp [in_fragment] at hf
  | .function f, hf => by simp [in_fragment] at hf
  | .externalFunction h, hf => by simp [in_fragment] at hf
  | .generator f, hf => by simp [in_fragment] at hf
  | .iterator h, hf => by simp [in_fragment] at hf
  | .object h, hf => by simp [in_fragment] at hf
  | .temporaryTuple s c, hf => by simp [in_fragment] at hf
  | .sequenceBuilder xs, hf => by simp [in_fragment] at hf
  | .stringBuilder s, hf => by simp [in_fragment] at hf

/-- Round trip of list contents over the fragment. -/
theorem round_trip_vec_fragment : ∀ xs : Core.ValueVec,
    in_fragment_vec xs = true → round_trip_vec_ok xs = true
  | .nil, _ => by
    simp [round_trip_vec_ok, koto_vec_to_toml, toml_array_values,
      Core.structEq_vec]
  | .cons v rest, hf => by
    simp only [in_fragment_vec, Bool.and_eq_true] at hf
    have h1 := round_trip_fragment v hf.1
    have h2 := round_trip_vec_fragment rest hf.2
    cases hkv : koto_to_toml v with
    | error e => simp [round_trip_ok, round_trip, hkv] at h1
    | ok t =>
      cases hkr : koto_vec_to_toml rest with
      | error e => simp [round_trip_vec_ok, hkr] at h2
      | ok ts =>
        have g1 : Core.structEq (toml_to_koto_value t) v = true := by
          simpa [round_trip_ok, round_trip, hkv] using h1
        have g2 : Core.structEq_vec (toml_array_values ts) rest = true := by
          simpa [round_trip_vec_ok, hkr] using h2
        simp [round_trip_vec_ok, koto_vec_to_toml, hkv, hkr,
          toml_array_values, Core.structEq_vec, g1, g2]

/-- Round trip of map entries over the fragment. -/
theorem round_trip_entries_fragment : ∀ es : Core.ValueEntries,
    in_fragment_entries es = true → round_trip_entries_ok es = true
  | .nil, _ => by
    simp [round_trip_entries_ok, koto_entries_to_toml, toml_table_values,
      Core.structEq_entries]
  | .cons k v rest, hf => by
    simp only [in_fragment_entries, Bool.and_eq_true] at hf
    obtain ⟨⟨hk, hv⟩, hr⟩ := hf
    have h1 := round_trip_fragment v hv
    have h2 := round_trip_entries_fragment rest hr
    cases k <;> simp only [is_str, Bool.false_eq_true] at hk
    case str s =>
      cases hkv : koto_to_toml v with
      | error e => simp [round_trip_ok, round_trip, hkv] at h1
      | ok t =>
        cases hkr : koto_entries_to_toml rest with
        | error e => simp [round_trip_entries_ok, hkr] at h2
        | ok ts =>
          have g1 : Core.structEq (toml_to_koto_value t) v = true := by
            simpa [round_trip_ok, round_trip, hkv] using h1
          have g2 : Core.structEq_entries (toml_table_values ts) rest =
              true := by
            simpa [round_trip_entries_ok, hkr] using h2
          simp [round_trip_entries_ok, koto_entries_to_toml, hkv, hkr,
            toml_table_values, Core.structEq_entries, Core.structEq, g1, g2]

end

end KotoToml

/-- C8 counterexample: a map holding `Null` cannot round trip: TOML has no
null representation, so `to_string` fails (and, by
`KotoToml.toml_value_null_free`, no decoded TOML value contains `Null`
either, so no serialization of `{a: null}` could decode back to it). -/
theorem C8_null_round_trip_fails :
    (KotoToml.round_trip (.map 0 (.cons (.str "a") .null .nil) .none)).isOk
      = false := rfl

/-- C8 (amended): for every map with string keys, no meta-map, and values
drawn from `{Bool, Number, String, List, Map}` recursively (`Null`
excluded), encoding with `toml.to_string` and decoding with
`toml.from_string` yields a structurally equal map. -/
theorem C8_toml_round_trip : ∀ (h : Nat) (es : Core.ValueEntries),
    KotoToml.in_fragment (.map h es .none) = true →
    KotoToml.round_trip_ok (.map h es .none) = true :=
  fun h es hf => KotoToml.round_trip_fragment (.map h es .none) hf

/-- C8 witness: the concrete map `{a: true}` round trips. -/
theorem C8_toml_round_trip_witness :
    KotoToml.in_fragment (.map 0 (.cons (.str "a") (.bool true) .nil) .none)
      = true ∧
    KotoToml.round_trip_ok
      (.map 0 (.cons (.str "a") (.bool true) .nil) .none) = true :=
  ⟨rfl, C8_toml_round_trip 0 (.cons (.str "a") (.bool true) .nil) rfl⟩
